import Mathlib

/-!
Verification of the QuantHybrid risk & order lifecycle subsystem.

Shallow embedding of the Python source:
  * `utils/trading_state.py`   → `TradingState` and its operations
  * `risk_management/risk_manager.py` → `RiskState`, `validateOrder`,
    `updateRiskMetrics`, `getPositionSize`, `shouldStopTrading`
  * `monitoring/safety_monitor.py` → `triggerEmergencyStop`,
    `manageRecoveryMode`, `manageCircuitBreakers`
  * `execution/order_manager.py` → pending-order set operations
  * `config/risk_settings.py` → numeric configuration constants

Python floats are modelled as rationals (the claims under scrutiny are
arithmetic identities and inequalities, not rounding statements), machine
integers as `Int`, and Python's `int()` truncation as `pyInt`.  Fallible
paths (swallowed exceptions) are modelled explicitly where a claim depends
on them.
-/

/-- Python `int(x)` truncates toward zero. -/
def pyInt (q : ℚ) : ℤ := if 0 ≤ q then ⌊q⌋ else ⌈q⌉

/-! ## Configuration constants, from `config/risk_settings.py` -/

/-- `RISK_LIMITS['max_daily_loss_percent']`; `RiskManager.__init__` resolves
`max_daily_loss` to this value because the key `max_daily_loss` is absent. -/
def maxDailyLoss : ℚ := 1

/-- `RISK_LIMITS['max_drawdown']`. -/
def maxDrawdownLimit : ℚ := 5

/-- `RISK_LIMITS['max_position_size']`. -/
def maxPositionSize : ℤ := 5

/-- `RISK_LIMITS['min_position_size']`. -/
def minPositionSize : ℤ := 1

/-- `RISK_LIMITS['max_total_exposure']`. -/
def maxTotalExposure : ℚ := 15

/-- `RISK_LIMITS['high_volatility_threshold']`. -/
def highVolThreshold : ℚ := 25

/-- `RISK_LIMITS['medium_volatility_threshold']`. -/
def mediumVolThreshold : ℚ := 20

/-- `RISK_LIMITS['max_volatility']`. -/
def maxVolatility : ℚ := 35

/-- `RISK_LIMITS['min_trend_strength']`. -/
def minTrendStrength : ℚ := 20

/-- `RISK_LIMITS['volatility_base']`. -/
def volatilityBase : ℚ := 15

/-- `RISK_LIMITS['max_capital_per_trade']`. -/
def maxCapitalPerTrade : ℚ := 2 / 100

/-- `CIRCUIT_BREAKERS['level_1']['drawdown']`. -/
def level1Drawdown : ℚ := 2

/-- `CIRCUIT_BREAKERS['level_2']['drawdown']`. -/
def level2Drawdown : ℚ := 7 / 2

/-- `CIRCUIT_BREAKERS['level_3']['drawdown']`. -/
def level3Drawdown : ℚ := 5

/-- `RECOVERY_SETTINGS['min_trades']`. -/
def recoveryMinTrades : ℕ := 10

/-- `RECOVERY_SETTINGS['min_win_rate']`. -/
def recoveryMinWinRate : ℚ := 3 / 5

/-- `RECOVERY_SETTINGS['activation_threshold']`. -/
def recoveryActivation : ℚ := -3

/-! ## `utils/trading_state.py` -/

/-- State of the `TradingState` singleton: the two booleans plus the four
registered component-readiness flags of `_component_status`. -/
structure TradingState where
  trading_enabled : Bool
  emergency_stop : Bool
  market_data : Bool
  risk_manager : Bool
  order_manager : Bool
  strategy_engine : Bool
  deriving Repr, DecidableEq

namespace TradingState

/-- `all(self._component_status.values())`. -/
def allComponentsReady (s : TradingState) : Bool :=
  s.market_data && s.risk_manager && s.order_manager && s.strategy_engine

/-- `TradingState.enable_trading`: sets `_trading_enabled` and returns `True`
when every component is ready and there is no emergency stop; otherwise
returns `False` without touching the state. -/
def enable_trading (s : TradingState) : TradingState × Bool :=
  if s.allComponentsReady && !s.emergency_stop then
    ({ s with trading_enabled := true }, true)
  else
    (s, false)

/-- `TradingState.disable_trading`. -/
def disable_trading (s : TradingState) : TradingState :=
  { s with trading_enabled := false }

/-- `TradingState.is_trading_enabled`: `_trading_enabled and not _emergency_stop`. -/
def is_trading_enabled (s : TradingState) : Bool :=
  s.trading_enabled && !s.emergency_stop

/-- `TradingState.is_emergency_stop`. -/
def is_emergency_stop (s : TradingState) : Bool :=
  s.emergency_stop

end TradingState

/-! ## `monitoring/safety_monitor.py` — emergency stop -/

/-- `SafetyMonitor._trigger_emergency_stop`.  The source runs, inside one
`try` block, `self.trading_state.disable_trading()` followed by
`self.trading_state.set_emergency_stop()`.  `TradingState` defines no method
named `set_emergency_stop` (the flag-setting method is called
`emergency_stop`), so the second call raises `AttributeError`, which the
`except` handler swallows after logging.  The net state change is therefore
only the `disable_trading` effect; the embedding reflects that. -/
def triggerEmergencyStop (s : TradingState) : TradingState :=
  s.disable_trading

/-! ## `risk_management/risk_manager.py` — state and order validation -/

/-- An order dictionary as consumed by `RiskManager.validate_order`:
`instrumentId` and `quantity` are read, `side` and `price` ride along
untouched (they matter for the frame property of C9). -/
structure PyOrder where
  instrumentId : String
  quantity : ℤ
  side : String
  price : ℚ
  deriving Repr, DecidableEq

/-- The strategy-metrics dictionary fields read by `validate_order`
(each read with `.get(key, 0)`, so a missing key is the same as 0). -/
structure StrategyMetrics where
  volatility : ℚ
  trend_strength : ℚ
  max_drawdown : ℚ
  deriving Repr, DecidableEq

/-- A value stored in `RiskManager.risk_metrics`.  `update_risk_metrics`
stores plain numbers; tests may store nested mappings, from which
`should_stop_trading` reads `.get('max_drawdown', 0)`.  Calling `.get` on a
number raises `AttributeError` (swallowed into the fail-safe `True`), so
both shapes must be represented. -/
inductive RMValue where
  | num (q : ℚ)
  | dict (maxDrawdown : Option ℚ)
  deriving Repr, DecidableEq

/-- Mutable state of a `RiskManager` instance: `daily_pnl`,
`position_limits` (instrument id → quantity, as an association list whose
`lookup` agrees with the Python dict), and `risk_metrics`. -/
structure RiskState where
  daily_pnl : ℚ
  position_limits : List (String × ℤ)
  risk_metrics : List (String × RMValue)
  deriving Repr, DecidableEq

/-- `RiskManager._validate_market_regime` followed by
`RiskManager._validate_volatility` and the surrounding checks of
`RiskManager.validate_order`, as one function from the trading state, the
risk state, the order and the metrics to the returned boolean and the
(possibly mutated) order.  Mutation points in the source:
`_validate_market_regime` line `order['quantity'] = int(order['quantity'] * 0.5)`
under `volatility > high_volatility_threshold`, and `_validate_volatility`
line `order['quantity'] = int(order['quantity'] * volatility_factor)` on its
non-extreme path. -/
def validateOrder (ts : TradingState) (s : RiskState) (order : PyOrder)
    (m : StrategyMetrics) : Bool × PyOrder :=
  if !ts.is_trading_enabled then (false, order)
  else if s.daily_pnl ≤ -maxDailyLoss then (false, order)
  else if m.max_drawdown ≤ -maxDrawdownLimit then (false, order)
  else
    let currentPosition := (s.position_limits.lookup order.instrumentId).getD 0
    if |currentPosition + order.quantity| > maxPositionSize then (false, order)
    else
      -- _validate_market_regime
      let order1 :=
        if m.volatility > highVolThreshold then
          { order with quantity := pyInt ((order.quantity : ℚ) * (1/2)) }
        else order
      if m.trend_strength < minTrendStrength then (false, order1)
      else
        -- _validate_volatility
        if m.volatility > maxVolatility then (false, order1)
        else
          let volatilityFactor : ℚ :=
            if m.volatility > highVolThreshold then 1/2
            else if m.volatility > mediumVolThreshold then 3/4
            else 1
          (true, { order1 with quantity := pyInt ((order1.quantity : ℚ) * volatilityFactor) })

/-! ## `risk_management/risk_manager.py` — `update_risk_metrics` -/

/-- A position dictionary as consumed by `update_risk_metrics`
(`instrumentId`, and the `.get`-read fields `quantity`, `avgPrice`, `pnl`,
whose defaults are 0). -/
structure PyPosition where
  instrumentId : String
  quantity : ℤ
  avgPrice : ℚ
  pnl : ℚ
  deriving Repr, DecidableEq

/-- The dict comprehension
`{pos['instrumentId']: pos.get('quantity', 0) for pos in positions}`,
as an association list; with pairwise-distinct instrument ids its `lookup`
agrees with the Python dict's. -/
def buildPositionLimits (positions : List PyPosition) : List (String × ℤ) :=
  positions.map fun pos => (pos.instrumentId, pos.quantity)

/-- `RiskManager.update_risk_metrics(positions, trades)`: replaces
`daily_pnl` with the sum of position P&L, `position_limits` with the rebuilt
map, and `risk_metrics` with the freshly computed snapshot (every value a
number). -/
def updateRiskMetrics (_s : RiskState) (positions : List PyPosition)
    (trades : List ℚ) : RiskState :=
  let dailyPnl := (positions.map (·.pnl)).sum
  { daily_pnl := dailyPnl
    position_limits := buildPositionLimits positions
    risk_metrics :=
      [("daily_pnl", RMValue.num dailyPnl),
       ("total_exposure", RMValue.num
          ((positions.map fun pos => |(pos.quantity : ℚ) * pos.avgPrice|).sum)),
       ("largest_position", RMValue.num
          (((positions.map fun pos => |pos.quantity|).foldl max 0 : ℤ) : ℚ)),
       ("open_positions", RMValue.num (positions.length : ℚ)),
       ("daily_trades", RMValue.num (trades.length : ℚ))] }

/-! ## `risk_management/risk_manager.py` — `get_position_size` -/

/-- A value read out of the `strategy_metrics` dict by `get_position_size`:
either a number, or something a numeric comparison / arithmetic raises on
(`TypeError`), which the function's `except` clause turns into the
configured minimum size. -/
inductive PyVal where
  | num (q : ℚ)
  | other
  deriving Repr, DecidableEq

/-- `RiskManager.get_position_size(instrument_id, price, strategy_metrics)`.
`volatility` and `max_drawdown` come from `.get(..., 0)` on the metrics
dict; a non-numeric value makes `volatility > 0` (resp.
`drawdown / self.max_drawdown`) raise, and the handler returns
`RISK_LIMITS['min_position_size']`. -/
def getPositionSize (price : ℚ) (volatility maxDrawdown : PyVal) : ℤ :=
  match volatility with
  | .other => minPositionSize
  | .num vol =>
    let baseSize : ℤ := maxPositionSize
    let volatilityFactor : ℚ :=
      if vol > 0 then min 1 (volatilityBase / vol) else 1
    let capitalFactor : ℚ :=
      min 1 (maxCapitalPerTrade / max (1 / 1000000000) ((price * baseSize) / 100))
    match maxDrawdown with
    | .other => minPositionSize
    | .num drawdown =>
      let drawdownFactor : ℚ := max (1/5) (1 + drawdown / maxDrawdownLimit)
      max minPositionSize
        (pyInt ((baseSize : ℚ) * volatilityFactor * capitalFactor * drawdownFactor))

/-! ## `risk_management/risk_manager.py` — `should_stop_trading` -/

/-- Outcome of evaluating
`any(metric.get('max_drawdown', 0) <= -self.max_drawdown for metric in self.risk_metrics.values())`
left to right: the first numeric value raises `AttributeError`
(`raised`), the first nested mapping whose `max_drawdown` breaches the limit
yields `True` (`breach`), and a full pass without either is `clean`. -/
inductive DrawdownScan where
  | breach
  | raised
  | clean
  deriving Repr, DecidableEq

/-- Left-to-right scan of `risk_metrics.values()` as performed by the `any`
generator in `should_stop_trading`. -/
def scanMaxDrawdown : List (String × RMValue) → DrawdownScan
  | [] => .clean
  | (_, RMValue.num _) :: _ => .raised
  | (_, RMValue.dict md) :: rest =>
    if md.getD 0 ≤ -maxDrawdownLimit then .breach else scanMaxDrawdown rest

/-- `RiskManager.should_stop_trading()`: daily-loss check against
`CIRCUIT_BREAKERS['level_3']['drawdown']`, the per-metric max-drawdown scan,
then the total-exposure check; any exception on the way (a numeric value hit
by `.get`, or a mapping compared against a number) is caught and resolved to
`True`. -/
def shouldStopTrading (s : RiskState) : Bool :=
  if s.daily_pnl ≤ -level3Drawdown then true
  else
    match scanMaxDrawdown s.risk_metrics with
    | .breach => true
    | .raised => true
    | .clean =>
      match s.risk_metrics.lookup "total_exposure" with
      | none => decide ((0 : ℚ) > maxTotalExposure)
      | some (RMValue.num q) => decide (q > maxTotalExposure)
      | some (RMValue.dict _) => true

/-! ## `monitoring/safety_monitor.py` — recovery mode -/

/-- `SafetyMonitor._manage_recovery_mode`, acting on the `recovery_mode`
flag; `dailyPnl` is `market_metrics.get('daily_pnl', 0)` and `recentTrades`
the list of `t['pnl']` values of `market_metrics.get('recent_trades', [])`. -/
def manageRecoveryMode (recoveryMode : Bool) (dailyPnl : ℚ)
    (recentTrades : List ℚ) : Bool :=
  let rm1 :=
    if !recoveryMode && decide (dailyPnl < recoveryActivation) then true
    else recoveryMode
  if rm1 then
    if recentTrades.length ≥ recoveryMinTrades then
      let winRate : ℚ :=
        ((recentTrades.filter fun t => t > 0).length : ℚ) / (recentTrades.length : ℚ)
      if winRate ≥ recoveryMinWinRate then false else rm1
    else rm1
  else rm1

/-! ## `monitoring/safety_monitor.py` — circuit breakers -/

/-- The drawdown threshold of `CIRCUIT_BREAKERS[f'level_{n}']`, `none` when
that key is absent (lookup then raises `KeyError`). -/
def breakerThreshold : ℕ → Option ℚ
  | 1 => some level1Drawdown
  | 2 => some level2Drawdown
  | 3 => some level3Drawdown
  | _ => none

/-- Total version of `breakerThreshold` (0 where undefined), used to phrase
"a strictly worse threshold". -/
def breakerThresholdD (n : ℕ) : ℚ := (breakerThreshold n).getD 0

/-- `SafetyMonitor._manage_circuit_breakers`: the for-loop over
`CIRCUIT_BREAKERS.items()` in insertion order (level_1, level_2, level_3),
raising `circuit_breaker_level` on each breached threshold above the current
level, then the single recovery step that lowers the level by one when the
drawdown has improved past the *current* level's threshold.  A `KeyError`
on the recovery lookup is swallowed by the `except` clause, leaving the
level unchanged. -/
def manageCircuitBreakers (level : ℕ) (currentDrawdown : ℚ) : ℕ :=
  let l1 := if currentDrawdown ≤ -level1Drawdown ∧ level < 1 then 1 else level
  let l2 := if currentDrawdown ≤ -level2Drawdown ∧ l1 < 2 then 2 else l1
  let l3 := if currentDrawdown ≤ -level3Drawdown ∧ l2 < 3 then 3 else l2
  if l3 > 0 then
    match breakerThreshold l3 with
    | some t => if currentDrawdown > -t then l3 - 1 else l3
    | none => l3
  else l3

/-! ## `execution/order_manager.py` — pending orders -/

/-- `database/models.py` `OrderStatus`. -/
inductive OrderStatus where
  | pending
  | placed
  | executed
  | cancelled
  | rejected
  | modified
  deriving Repr, DecidableEq

/-- The terminal statuses of the order state machine. -/
def OrderStatus.isTerminal : OrderStatus → Bool
  | .executed => true
  | .cancelled => true
  | .rejected => true
  | _ => false

/-- The fields of an `Order` record that the pending-order bookkeeping
touches. -/
structure OrderRec where
  instrument_id : String
  status : OrderStatus
  deriving Repr, DecidableEq

/-- The `pending_orders` dict, keyed by broker order id. -/
abbrev PendingOrders := List (String × OrderRec)

/-- Replace the value stored under `key` (the in-place mutation
`order.status = new_status.value` of the object held in the dict). -/
def PendingOrders.setStatus (pending : PendingOrders) (key : String)
    (st : OrderStatus) : PendingOrders :=
  pending.map fun kv => if kv.1 = key then (kv.1, { kv.2 with status := st }) else kv

/-- `self.pending_orders.pop(broker_order_id)` /
`self.pending_orders.pop(broker_order_id, None)`. -/
def PendingOrders.pop (pending : PendingOrders) (key : String) : PendingOrders :=
  pending.filter fun kv => kv.1 ≠ key

/-- `OrderManager._update_order_status(broker_order_id, order_data)` with a
broker-reported status `newStatus`: looks the order up in `pending_orders`
(a missing id raises `KeyError`, swallowed, state unchanged); when the
reported status differs it rewrites the stored status and, only when the
new status is EXECUTED, pops the order from the pending set. -/
def updateOrderStatus (pending : PendingOrders) (brokerOrderId : String)
    (newStatus : OrderStatus) : PendingOrders :=
  match pending.lookup brokerOrderId with
  | none => pending
  | some order =>
    if newStatus ≠ order.status then
      let pending1 := pending.setStatus brokerOrderId newStatus
      if newStatus = .executed then pending1.pop brokerOrderId else pending1
    else pending

/-- The `pending_orders` effect of a successful `OrderManager.cancel_order`:
`self.pending_orders.pop(broker_order_id, None)` (the status rewrite goes to
the persisted record, not to the pending set). -/
def cancelOrderPending (pending : PendingOrders) (brokerOrderId : String) :
    PendingOrders :=
  pending.pop brokerOrderId

/-- The `pending_orders` effect of a successful `OrderManager.place_order`:
`self.pending_orders[broker_order_id] = order` with a fresh record whose
status is `OrderStatus.PLACED.value`. -/
def placeOrderPending (pending : PendingOrders) (brokerOrderId : String)
    (instrumentId : String) : PendingOrders :=
  (brokerOrderId, { instrument_id := instrumentId, status := .placed }) ::
    pending.pop brokerOrderId

/-- The situations in which `should_stop_trading` hits a swallowed
exception: a numeric `risk_metrics` value reached by the `.get` call of the
max-drawdown scan (`AttributeError`), or a nested mapping stored under
`total_exposure` compared against a number (`TypeError`). -/
def stopCheckRaises (s : RiskState) : Prop :=
  (∃ kv ∈ s.risk_metrics, ∃ q, kv.2 = RMValue.num q)
  ∨ (∃ md, s.risk_metrics.lookup "total_exposure" = some (RMValue.dict md))

/-! ## Helper lemmas -/

theorem pyInt_mono {a b : ℚ} (h : a ≤ b) : pyInt a ≤ pyInt b := by
  unfold pyInt
  by_cases ha : 0 ≤ a
  · rw [if_pos ha, if_pos (le_trans ha h)]
    exact Int.floor_le_floor h
  · rw [if_neg ha]
    by_cases hb : 0 ≤ b
    · rw [if_pos hb]
      have h1 : (⌈a⌉ : ℤ) ≤ 0 := Int.ceil_le.mpr (by exact_mod_cast le_of_not_le ha)
      have h2 : (0 : ℤ) ≤ ⌊b⌋ := Int.floor_nonneg.mpr hb
      omega
    · rw [if_neg hb]
      exact Int.ceil_le_ceil h

theorem pyInt_intCast (n : ℤ) : pyInt (n : ℚ) = n := by
  unfold pyInt
  split_ifs with h
  · exact Int.floor_intCast n
  · exact Int.ceil_intCast n

/-- `List.lookup` only returns pairs present in the list. -/
theorem lookup_mem {α β : Type} [BEq α] {l : List (α × β)} {k : α} {v : β}
    (h : l.lookup k = some v) : ∃ k2, (k2, v) ∈ l ∧ (k == k2) = true := by
  induction l with
  | nil => simp [List.lookup] at h
  | cons a rest ih =>
    rw [List.lookup] at h
    by_cases hk : (k == a.1) = true
    · rw [hk] at h
      simp only [Option.some.injEq] at h
      exact ⟨a.1, by simp [← h, hk]⟩
    · rw [Bool.of_not_eq_true hk] at h
      obtain ⟨k2, hmem, hbeq⟩ := ih h
      exact ⟨k2, by simp [hmem], hbeq⟩

theorem lookup_pop_self (p : PendingOrders) (k : String) :
    (p.pop k).lookup k = none := by
  induction p with
  | nil => rfl
  | cons a rest ih =>
    obtain ⟨ka, va⟩ := a
    rw [PendingOrders.pop, List.filter_cons]
    by_cases h : ka = k
    · rw [if_neg (by simp [h])]
      exact ih
    · rw [if_pos (by simp [h]), List.lookup]
      rw [show (k == ka) = false from beq_eq_false_iff_ne.mpr (Ne.symm h)]
      exact ih

theorem lookup_pop_none {p : PendingOrders} {k2 : String} (k : String)
    (h : p.lookup k2 = none) : (p.pop k).lookup k2 = none := by
  induction p with
  | nil => rfl
  | cons a rest ih =>
    obtain ⟨ka, va⟩ := a
    rw [List.lookup] at h
    by_cases hk : (k2 == ka) = true
    · rw [hk] at h
      cases h
    · rw [Bool.of_not_eq_true hk] at h
      rw [PendingOrders.pop, List.filter_cons]
      by_cases hke : ka = k
      · rw [if_neg (by simp [hke])]
        exact ih h
      · rw [if_pos (by simp [hke]), List.lookup, Bool.of_not_eq_true hk]
        exact ih h

theorem lookup_setStatus_none {p : PendingOrders} {k2 : String} (k : String)
    (st : OrderStatus) (h : p.lookup k2 = none) :
    (p.setStatus k st).lookup k2 = none := by
  induction p with
  | nil => rfl
  | cons a rest ih =>
    obtain ⟨ka, va⟩ := a
    rw [List.lookup] at h
    by_cases hk : (k2 == ka) = true
    · rw [hk] at h
      cases h
    · rw [Bool.of_not_eq_true hk] at h
      rw [PendingOrders.setStatus, List.map_cons]
      by_cases hke : ka = k
      · subst hke
        rw [if_pos rfl, List.lookup, Bool.of_not_eq_true hk]
        exact ih h
      · rw [if_neg hke, List.lookup, Bool.of_not_eq_true hk]
        exact ih h

theorem lookup_setStatus_self {p : PendingOrders} {k : String} {r : OrderRec}
    (st : OrderStatus) (h : p.lookup k = some r) :
    (p.setStatus k st).lookup k = some { r with status := st } := by
  induction p with
  | nil => cases h
  | cons a rest ih =>
    obtain ⟨ka, va⟩ := a
    rw [List.lookup] at h
    by_cases hk : (k == ka) = true
    · rw [hk] at h
      simp only [Option.some.injEq] at h
      have hke : ka = k := (beq_iff_eq.mp hk).symm
      subst hke
      rw [PendingOrders.setStatus, List.map_cons, if_pos rfl, List.lookup,
        beq_self_eq_true, h]
    · rw [Bool.of_not_eq_true hk] at h
      rw [PendingOrders.setStatus, List.map_cons]
      have hke : ¬ ka = k := fun he => hk (beq_iff_eq.mpr he.symm)
      rw [if_neg hke, List.lookup, Bool.of_not_eq_true hk]
      exact ih h

/-! ## Claim C10 -/

/-- C10: `TradingState.enable_trading()` sets `trading_enabled` and returns
`true` exactly when every registered component status is `true` and
`emergency_stop` is `false`; in every other state it returns `false` and
leaves the state (in particular `trading_enabled`) unchanged. -/
theorem C10_enable_trading (s : TradingState) :
    (s.enable_trading.2 = (s.market_data && s.risk_manager && s.order_manager
        && s.strategy_engine && !s.emergency_stop))
    ∧ (s.enable_trading.2 = true →
        s.enable_trading.1 = { s with trading_enabled := true })
    ∧ (s.enable_trading.2 = false → s.enable_trading.1 = s) := by
  obtain ⟨te, es, md, rm, om, se⟩ := s
  revert te es md rm om se
  decide

/-- C10 witness: with every component ready and no emergency stop,
`enable_trading` reports success and turns the flag on. -/
theorem C10_enable_trading_witness :
    (TradingState.enable_trading ⟨false, false, true, true, true, true⟩).1
      = ⟨true, false, true, true, true, true⟩ :=
  (C10_enable_trading ⟨false, false, true, true, true, true⟩).2.1 (by decide)

/-! ## Claim C2 -/

/-- C2 (code bug): the spec says `_trigger_emergency_stop` both disables
trading and sets the emergency-stop flag.  The source calls
`self.trading_state.set_emergency_stop()`, a method that does not exist on
`TradingState` (the flag-setter is named `emergency_stop`); the resulting
`AttributeError` is swallowed by the surrounding `except` clause, so after
the call trading is disabled but `is_emergency_stop()` is still `false`.
Evaluated here at a running state (trading enabled, no emergency stop). -/
theorem C2_emergency_stop_flag_never_set :
    (triggerEmergencyStop ⟨true, false, true, true, true, true⟩).is_trading_enabled = false
    ∧ (triggerEmergencyStop ⟨true, false, true, true, true, true⟩).is_emergency_stop = false
    ∧ triggerEmergencyStop (triggerEmergencyStop ⟨true, false, true, true, true, true⟩)
        = triggerEmergencyStop ⟨true, false, true, true, true, true⟩ := by
  decide

/-! ## Claim C6 -/

/-- C6: once `recovery_mode` is `true`, `_manage_recovery_mode` clears it
exactly when the recent-trade sample holds at least
`RECOVERY_SETTINGS['min_trades']` trades and the win rate over that sample
is at least `RECOVERY_SETTINGS['min_win_rate']`; with fewer than
`min_trades` trades it never exits recovery mode, whatever the trades'
outcomes. -/
theorem C6_recovery_mode_exit (dailyPnl : ℚ) (recentTrades : List ℚ) :
    (manageRecoveryMode true dailyPnl recentTrades = false ↔
      recentTrades.length ≥ recoveryMinTrades ∧
        ((recentTrades.filter fun t => t > 0).length : ℚ) / (recentTrades.length : ℚ)
          ≥ recoveryMinWinRate)
    ∧ (recentTrades.length < recoveryMinTrades →
        manageRecoveryMode true dailyPnl recentTrades = true) := by
  unfold manageRecoveryMode
  simp only [Bool.not_true, Bool.false_and, Bool.false_eq_true, if_false, if_true]
  constructor
  · split_ifs with h1 h2
    · simp [h1, h2]
    · simp [h1, h2]
    · simp [h1]
  · intro hlt
    split_ifs with h1 h2
    · omega
    · rfl
    · rfl

/-- C6 witness: five straight winning trades are not enough to leave
recovery mode. -/
theorem C6_recovery_mode_exit_witness :
    manageRecoveryMode true 0 [1, 1, 1, 1, 1] = true :=
  (C6_recovery_mode_exit 0 [1, 1, 1, 1, 1]).2 (by decide)

/-! ## Claim C5 -/

set_option maxHeartbeats 2000000 in
/-- C5: in one evaluation of `_manage_circuit_breakers` the level rises only
when the current drawdown breaches the (strictly worse) threshold of the new
level, and it never drops by more than one level, however far the drawdown
has recovered. -/
theorem C5_circuit_breaker_level (level : ℕ) (dd : ℚ) :
    (level < manageCircuitBreakers level dd →
       dd ≤ -(breakerThresholdD (manageCircuitBreakers level dd))
       ∧ breakerThresholdD level < breakerThresholdD (manageCircuitBreakers level dd))
    ∧ level ≤ manageCircuitBreakers level dd + 1 := by
  by_cases hbig : 4 ≤ level
  · obtain ⟨n, rfl⟩ : ∃ n, level = n + 4 := ⟨level - 4, by omega⟩
    have hm : manageCircuitBreakers (n + 4) dd = n + 4 := by
      unfold manageCircuitBreakers
      have h1 : ¬ (n + 4 < 1) := by omega
      have h2 : ¬ (n + 4 < 2) := by omega
      have h3 : ¬ (n + 4 < 3) := by omega
      simp [h1, h2, h3, show breakerThreshold (n + 4) = none from rfl]
    rw [hm]
    exact ⟨fun h => absurd h (lt_irrefl _), by omega⟩
  · have hl3 : level ≤ 3 := by omega
    rcases le_or_lt dd (-5) with hR3 | hgt3
    · have hm : manageCircuitBreakers level dd = 3 := by
        interval_cases level <;>
        · unfold manageCircuitBreakers
          norm_num [level1Drawdown, level2Drawdown, level3Drawdown]
          simp only [breakerThreshold]
          split_ifs <;>
            simp_all [breakerThreshold, level1Drawdown, level2Drawdown, level3Drawdown] <;>
            first | rfl | linarith | (split_ifs <;> first | rfl | linarith)
      rw [hm]
      refine ⟨fun h => ⟨?_, ?_⟩, by omega⟩
      · norm_num [breakerThresholdD, breakerThreshold, level3Drawdown]
        linarith
      · interval_cases level <;>
          norm_num [breakerThresholdD, breakerThreshold,
            level1Drawdown, level2Drawdown, level3Drawdown] at h ⊢
    · rcases le_or_lt dd (-7/2) with hR2 | hgt2
      · have hm : manageCircuitBreakers level dd = 2 := by
          interval_cases level <;>
          · unfold manageCircuitBreakers
            norm_num [level1Drawdown, level2Drawdown, level3Drawdown]
            simp only [breakerThreshold]
            split_ifs <;>
              simp_all [breakerThreshold, level1Drawdown, level2Drawdown, level3Drawdown] <;>
              first | rfl | linarith | (split_ifs <;> first | rfl | linarith)
        rw [hm]
        refine ⟨fun h => ⟨?_, ?_⟩, by omega⟩
        · norm_num [breakerThresholdD, breakerThreshold, level2Drawdown]
          linarith
        · interval_cases level <;>
            norm_num [breakerThresholdD, breakerThreshold,
              level1Drawdown, level2Drawdown, level3Drawdown] at h ⊢
      · rcases le_or_lt dd (-2) with hR1 | hgt1
        · by_cases h3 : level = 3
          · subst h3
            have hm : manageCircuitBreakers 3 dd = 2 := by
              unfold manageCircuitBreakers
              norm_num [level1Drawdown, level2Drawdown, level3Drawdown]
              simp only [breakerThreshold]
              split_ifs <;>
                simp_all [breakerThreshold, level1Drawdown, level2Drawdown, level3Drawdown] <;>
                first | rfl | linarith | (split_ifs <;> first | rfl | linarith)
            rw [hm]
            exact ⟨fun h => absurd h (by omega), by omega⟩
          · have hl2 : level ≤ 2 := by omega
            have hm : manageCircuitBreakers level dd = 1 := by
              interval_cases level <;>
              · unfold manageCircuitBreakers
                norm_num [level1Drawdown, level2Drawdown, level3Drawdown]
                simp only [breakerThreshold]
                split_ifs <;>
                  simp_all [breakerThreshold, level1Drawdown, level2Drawdown, level3Drawdown] <;>
                  first | rfl | linarith | (split_ifs <;> first | rfl | linarith)
            rw [hm]
            refine ⟨fun h => ⟨?_, ?_⟩, by omega⟩
            · norm_num [breakerThresholdD, breakerThreshold, level1Drawdown]
              linarith
            · interval_cases level <;>
                norm_num [breakerThresholdD, breakerThreshold,
                  level1Drawdown, level2Drawdown, level3Drawdown] at h ⊢
        · have hm : manageCircuitBreakers level dd = level - 1 := by
            interval_cases level <;>
            · unfold manageCircuitBreakers
              norm_num [level1Drawdown, level2Drawdown, level3Drawdown]
              simp only [breakerThreshold]
              split_ifs <;>
                simp_all [breakerThreshold, level1Drawdown, level2Drawdown, level3Drawdown] <;>
                first | rfl | linarith | (split_ifs <;> first | rfl | linarith)
          rw [hm]
          exact ⟨fun h => absurd h (by omega), by omega⟩

/-- C5 witness: from level 0 with a 6% drawdown the controller rises to
level 3 having breached the level-3 threshold; from level 3 with the
drawdown fully recovered it steps down only to level 2. -/
theorem C5_circuit_breaker_level_witness :
    (0 < manageCircuitBreakers 0 (-6) →
      (-6 : ℚ) ≤ -(breakerThresholdD (manageCircuitBreakers 0 (-6)))
      ∧ breakerThresholdD 0 < breakerThresholdD (manageCircuitBreakers 0 (-6)))
    ∧ 3 ≤ manageCircuitBreakers 3 0 + 1 :=
  ⟨(C5_circuit_breaker_level 0 (-6)).1, (C5_circuit_breaker_level 3 0).2⟩

/-! ## Claim C4 -/

/-- C4 counterexample: a broker-reported CANCELLED status — a terminal
status — applied by `_update_order_status` rewrites the stored status but
leaves the order in the `pending_orders` working set. -/
theorem C4_terminal_stays_pending_counterexample :
    OrderStatus.cancelled.isTerminal = true
    ∧ (updateOrderStatus [("o1", ⟨"TEST", .placed⟩)] "o1" .cancelled).lookup "o1"
        = some ⟨"TEST", .cancelled⟩ := by
  exact ⟨rfl, rfl⟩

/-- C4 as amended: on a genuine status transition (reported status differs
from the stored one) `_update_order_status` removes an order from
`pending_orders` exactly on a broker-reported EXECUTED transition, and
`cancel_order` removes it unconditionally; a broker-reported CANCELLED or
REJECTED transition rewrites the stored status but leaves the order in the
pending set.  Neither operation ever adds a key, and `place_order` only
inserts fresh orders in the non-terminal PLACED status, so a terminal order
is never re-inserted. -/
theorem C4_pending_removal_amended (pending : PendingOrders)
    (id k iid : String) (st : OrderStatus) :
    (st = .executed → ∀ r, pending.lookup id = some r → st ≠ r.status →
        (updateOrderStatus pending id st).lookup id = none)
    ∧ (cancelOrderPending pending id).lookup id = none
    ∧ ((st = .cancelled ∨ st = .rejected) → pending.lookup id ≠ none →
        (updateOrderStatus pending id st).lookup id ≠ none)
    ∧ (pending.lookup k = none → (updateOrderStatus pending id st).lookup k = none)
    ∧ (pending.lookup k = none → (cancelOrderPending pending id).lookup k = none)
    ∧ ((placeOrderPending pending id iid).lookup id = some ⟨iid, .placed⟩
        ∧ OrderStatus.placed.isTerminal = false) := by
  refine ⟨?_, ?_, ?_, ?_, ?_, ?_, rfl⟩
  · intro hst r hlk hne
    subst hst
    unfold updateOrderStatus
    rw [hlk]
    dsimp only
    split
    · split
      · exact lookup_pop_self _ _
      · next hex => exact absurd rfl hex
    · next hne2 => exact absurd hne hne2
  · exact lookup_pop_self _ _
  · intro hst hsome
    unfold updateOrderStatus
    cases hlk : pending.lookup id with
    | none => exact hsome
    | some r =>
      dsimp only
      split
      · split
        · next hne hex =>
          rcases hst with h | h <;> subst h <;> cases hex
        · rw [lookup_setStatus_self st hlk]
          intro hc
          cases hc
      · exact hsome
  · intro hnone
    unfold updateOrderStatus
    cases hlk : pending.lookup id with
    | none => exact hnone
    | some r =>
      dsimp only
      split
      · split
        · exact lookup_pop_none id (lookup_setStatus_none id st hnone)
        · exact lookup_setStatus_none id st hnone
      · exact hnone
  · intro hnone
    exact lookup_pop_none id hnone
  · simp [placeOrderPending, List.lookup]

/-- C4 witness: an EXECUTED transition evicts the order; a REJECTED
transition leaves it in the pending set. -/
theorem C4_pending_removal_amended_witness :
    (updateOrderStatus [("o1", ⟨"T", .placed⟩)] "o1" .executed).lookup "o1" = none
    ∧ (updateOrderStatus [("o1", ⟨"T", .placed⟩)] "o1" .rejected).lookup "o1" ≠ none :=
  ⟨(C4_pending_removal_amended [("o1", ⟨"T", .placed⟩)] "o1" "k" "i" .executed).1
      rfl ⟨"T", .placed⟩ (by decide) (by decide),
   (C4_pending_removal_amended [("o1", ⟨"T", .placed⟩)] "o1" "k" "i" .rejected).2.2.1
      (Or.inr rfl) (by decide)⟩

/-! ## Claim C1 -/

/-- C1 counterexample: an order passing every preliminary check, with
volatility 30 (above the high threshold 25), ends with quantity
`int(int(5*0.5)*0.5) = 1`, not the claimed `int(5*0.5) = 2`: the halving is
applied once by `_validate_market_regime` and once more by
`_validate_volatility`. -/
theorem C1_half_scaling_counterexample :
    (validateOrder ⟨true, false, true, true, true, true⟩ ⟨0, [], []⟩
        ⟨"TEST", 5, "BUY", 100⟩ ⟨30, 25, 0⟩)
      = (true, ⟨"TEST", 1, "BUY", 100⟩)
    ∧ pyInt ((5 : ℚ) * (1/2)) = 2
    ∧ ((1 : ℤ) ≠ 2) := by
  refine ⟨?_, by norm_num [pyInt], by decide⟩
  unfold validateOrder
  norm_num [TradingState.is_trading_enabled, maxDailyLoss, maxDrawdownLimit,
    maxPositionSize, highVolThreshold, mediumVolThreshold, maxVolatility,
    minTrendStrength, List.lookup, pyInt]

/-- C1 as amended: for orders passing the trading-enabled, daily-loss,
drawdown and position-size checks and additionally the trend-strength and
extreme-volatility checks, `validate_order` accepts, and the final quantity
is `int(int(q*0.5)*0.5)` when volatility exceeds the high threshold (the
0.5 factor is applied twice, once per validator), `int(q*0.75)` when it
exceeds only the medium threshold, and unchanged otherwise. -/
theorem C1_volatility_scaling_amended (ts : TradingState) (s : RiskState)
    (o : PyOrder) (m : StrategyMetrics)
    (h1 : ts.is_trading_enabled = true)
    (h2 : -maxDailyLoss < s.daily_pnl)
    (h3 : -maxDrawdownLimit < m.max_drawdown)
    (h4 : |(s.position_limits.lookup o.instrumentId).getD 0 + o.quantity| ≤ maxPositionSize)
    (h5 : minTrendStrength ≤ m.trend_strength)
    (h6 : m.volatility ≤ maxVolatility) :
    (validateOrder ts s o m).1 = true
    ∧ (validateOrder ts s o m).2.quantity =
        (if highVolThreshold < m.volatility then
           pyInt ((pyInt ((o.quantity : ℚ) * (1/2)) : ℚ) * (1/2))
         else if mediumVolThreshold < m.volatility then
           pyInt ((o.quantity : ℚ) * (3/4))
         else o.quantity) := by
  simp only [validateOrder, h1, Bool.not_true, Bool.false_eq_true, if_false]
  rw [if_neg (not_le.mpr h2), if_neg (not_le.mpr h3), if_neg (not_lt.mpr h4)]
  by_cases hv : highVolThreshold < m.volatility
  · rw [if_pos hv, if_neg (not_lt.mpr h5), if_neg (not_lt.mpr h6), if_pos hv, if_pos hv]
    exact ⟨rfl, rfl⟩
  · rw [if_neg hv, if_neg (not_lt.mpr h5), if_neg (not_lt.mpr h6), if_neg hv, if_neg hv]
    by_cases hm : mediumVolThreshold < m.volatility
    · rw [if_pos hm, if_pos hm]
      exact ⟨rfl, rfl⟩
    · rw [if_neg hm, if_neg hm]
      refine ⟨rfl, ?_⟩
      show pyInt ((o.quantity : ℚ) * 1) = o.quantity
      rw [mul_one, pyInt_intCast]

/-- C1 witness: quantity 5 at volatility 30 passes validation and comes out
as 1. -/
theorem C1_volatility_scaling_amended_witness :
    (validateOrder ⟨true, false, true, true, true, true⟩ ⟨0, [], []⟩
        ⟨"TEST", 5, "BUY", 100⟩ ⟨30, 25, 0⟩).1 = true
    ∧ (validateOrder ⟨true, false, true, true, true, true⟩ ⟨0, [], []⟩
        ⟨"TEST", 5, "BUY", 100⟩ ⟨30, 25, 0⟩).2.quantity = 1 := by
  have h := C1_volatility_scaling_amended ⟨true, false, true, true, true, true⟩
      ⟨0, [], []⟩ ⟨"TEST", 5, "BUY", 100⟩ ⟨30, 25, 0⟩ (by decide)
      (by norm_num [maxDailyLoss]) (by norm_num [maxDrawdownLimit]) (by decide)
      (by norm_num [minTrendStrength]) (by norm_num [maxVolatility])
  refine ⟨h.1, ?_⟩
  rw [h.2]
  norm_num [highVolThreshold, pyInt]

/-! ## Claim C9 -/

/-- C9: `validate_order` touches nothing in its inputs except
`order['quantity']` (instrument id, side and price of the order are
preserved; the metrics dict is only ever read by the source, so the
embedding does not thread it), and the quantity reduction is independent of
the verdict: with volatility 30 (above the high threshold) and trend
strength 10 (below the minimum 20) the order is rejected and the quantity
has still been reduced from 5 to 2. -/
theorem C9_validate_order_frame :
    (∀ ts s o m,
       (validateOrder ts s o m).2.instrumentId = o.instrumentId
       ∧ (validateOrder ts s o m).2.side = o.side
       ∧ (validateOrder ts s o m).2.price = o.price)
    ∧ ((validateOrder ⟨true, false, true, true, true, true⟩ ⟨0, [], []⟩
          ⟨"TEST", 5, "BUY", 100⟩ ⟨30, 10, 0⟩).1 = false
       ∧ (validateOrder ⟨true, false, true, true, true, true⟩ ⟨0, [], []⟩
          ⟨"TEST", 5, "BUY", 100⟩ ⟨30, 10, 0⟩).2.quantity = 2
       ∧ (2 : ℤ) < 5) := by
  constructor
  · intro ts s o m
    simp only [validateOrder]
    split_ifs <;> simp
  · refine ⟨?_, ?_, by decide⟩ <;>
    · unfold validateOrder
      norm_num [TradingState.is_trading_enabled, maxDailyLoss, maxDrawdownLimit,
        maxPositionSize, highVolThreshold, mediumVolThreshold, maxVolatility,
        minTrendStrength, List.lookup, pyInt]

/-! ## Claim C8 -/

theorem lookup_buildPositionLimits {positions : List PyPosition}
    (hids : (positions.map (·.instrumentId)).Nodup) :
    ∀ p ∈ positions,
      (buildPositionLimits positions).lookup p.instrumentId = some p.quantity := by
  induction positions with
  | nil => intro p hp; cases hp
  | cons a rest ih =>
    intro p hp
    rw [List.map_cons, List.nodup_cons] at hids
    rw [buildPositionLimits, List.map_cons, List.lookup]
    rcases List.mem_cons.mp hp with h | h
    · subst h
      rw [beq_self_eq_true]
    · have hne : p.instrumentId ≠ a.instrumentId := by
        intro he
        exact hids.1 (he ▸ List.mem_map_of_mem (·.instrumentId) h)
      rw [beq_eq_false_iff_ne.mpr hne]
      exact ih hids.2 p h

/-- C8: `update_risk_metrics` replaces `daily_pnl` by the sum of the
positions' `pnl` fields (40 for the documented three-position scenario),
rebuilds the position-limit map so that each (distinct) instrument id maps
to that position's quantity, and stores `total_exposure = Σ|quantity ×
avgPrice|` — all independent of the previous state (a full replacement). -/
theorem C8_update_risk_metrics (s s2 : RiskState) (positions : List PyPosition)
    (trades : List ℚ)
    (hids : (positions.map (·.instrumentId)).Nodup) :
    (updateRiskMetrics s positions trades).daily_pnl = (positions.map (·.pnl)).sum
    ∧ (updateRiskMetrics s positions trades).risk_metrics.lookup "total_exposure"
        = some (RMValue.num
            ((positions.map fun p => |(p.quantity : ℚ) * p.avgPrice|).sum))
    ∧ (∀ p ∈ positions,
        (updateRiskMetrics s positions trades).position_limits.lookup p.instrumentId
          = some p.quantity)
    ∧ updateRiskMetrics s positions trades = updateRiskMetrics s2 positions trades
    ∧ (updateRiskMetrics s [⟨"A", 1, 100, 50⟩, ⟨"B", 2, 200, -30⟩, ⟨"C", 1, 10, 20⟩]
        trades).daily_pnl = 40 := by
  refine ⟨rfl, rfl, lookup_buildPositionLimits hids, rfl, ?_⟩
  show ((50 : ℚ)) + (-30 + (20 + 0)) = 40
  norm_num

/-- C8 witness: the documented scenario evaluated concretely. -/
theorem C8_update_risk_metrics_witness :
    (updateRiskMetrics ⟨0, [], []⟩
        [⟨"A", 1, 100, 50⟩, ⟨"B", 2, 200, -30⟩, ⟨"C", 1, 10, 20⟩] []).daily_pnl = 40
    ∧ (updateRiskMetrics ⟨0, [], []⟩
        [⟨"A", 1, 100, 50⟩, ⟨"B", 2, 200, -30⟩, ⟨"C", 1, 10, 20⟩]
        []).position_limits.lookup "B" = some 2 := by
  have h := C8_update_risk_metrics ⟨0, [], []⟩ ⟨1, [], []⟩
      [⟨"A", 1, 100, 50⟩, ⟨"B", 2, 200, -30⟩, ⟨"C", 1, 10, 20⟩] [] (by decide)
  exact ⟨h.2.2.2.2, h.2.2.1 ⟨"B", 2, 200, -30⟩ (by decide)⟩

/-! ## Claim C3 -/

theorem scan_ne_clean_iff (l : List (String × RMValue)) :
    scanMaxDrawdown l ≠ .clean ↔
      ∃ kv ∈ l, (∃ q, kv.2 = RMValue.num q)
        ∨ (∃ md, kv.2 = RMValue.dict md ∧ md.getD 0 ≤ -maxDrawdownLimit) := by
  induction l with
  | nil =>
    constructor
    · intro h
      exact absurd rfl h
    · rintro ⟨kv, hm, -⟩
      cases hm
  | cons a rest ih =>
    obtain ⟨k, v⟩ := a
    cases v with
    | num q =>
      constructor
      · intro _
        exact ⟨(k, RMValue.num q), List.mem_cons_self _ _, Or.inl ⟨q, rfl⟩⟩
      · intro _
        rw [scanMaxDrawdown]
        intro hc
        cases hc
    | dict md =>
      by_cases hbr : md.getD 0 ≤ -maxDrawdownLimit
      · constructor
        · intro _
          exact ⟨(k, RMValue.dict md), List.mem_cons_self _ _, Or.inr ⟨md, rfl, hbr⟩⟩
        · intro _
          rw [scanMaxDrawdown, if_pos hbr]
          intro hc
          cases hc
      · rw [scanMaxDrawdown, if_neg hbr, ih]
        constructor
        · rintro ⟨kv, hm, h⟩
          exact ⟨kv, List.mem_cons_of_mem _ hm, h⟩
        · rintro ⟨kv, hm, h⟩
          rcases List.mem_cons.mp hm with he | hm2
          · subst he
            rcases h with ⟨q, hq⟩ | ⟨md2, hmd2, hbr2⟩
            · cases hq
            · cases hmd2
              exact absurd hbr2 hbr
          · exact ⟨kv, hm2, h⟩

/-- C3: `should_stop_trading()` returns `true` exactly when daily P&L is at
or below the negated level-3 circuit-breaker drawdown, or some per-metric
max-drawdown record breaches `-max_drawdown`, or the recorded numeric total
exposure exceeds `max_total_exposure`, or the check hits a swallowed
internal exception (`stopCheckRaises`); in every other state it returns
`false`. -/
theorem C3_should_stop_trading (s : RiskState) :
    shouldStopTrading s = true ↔
      s.daily_pnl ≤ -level3Drawdown
      ∨ (∃ kv ∈ s.risk_metrics, ∃ md : Option ℚ,
           kv.2 = RMValue.dict md ∧ md.getD 0 ≤ -maxDrawdownLimit)
      ∨ (∃ q, s.risk_metrics.lookup "total_exposure" = some (RMValue.num q)
           ∧ q > maxTotalExposure)
      ∨ stopCheckRaises s := by
  unfold shouldStopTrading
  by_cases hd : s.daily_pnl ≤ -level3Drawdown
  · simp [hd]
  · rw [if_neg hd]
    cases hscan : scanMaxDrawdown s.risk_metrics with
    | breach =>
      constructor
      · intro _
        obtain ⟨kv, hmem, h⟩ := (scan_ne_clean_iff s.risk_metrics).mp
          (by rw [hscan]; intro hc; cases hc)
        rcases h with ⟨q, hq⟩ | ⟨md, hmd, hbr⟩
        · exact Or.inr (Or.inr (Or.inr (Or.inl ⟨kv, hmem, q, hq⟩)))
        · exact Or.inr (Or.inl ⟨kv, hmem, md, hmd, hbr⟩)
      · intro _
        rfl
    | raised =>
      constructor
      · intro _
        obtain ⟨kv, hmem, h⟩ := (scan_ne_clean_iff s.risk_metrics).mp
          (by rw [hscan]; intro hc; cases hc)
        rcases h with ⟨q, hq⟩ | ⟨md, hmd, hbr⟩
        · exact Or.inr (Or.inr (Or.inr (Or.inl ⟨kv, hmem, q, hq⟩)))
        · exact Or.inr (Or.inl ⟨kv, hmem, md, hmd, hbr⟩)
      · intro _
        rfl
    | clean =>
      cases hlk : s.risk_metrics.lookup "total_exposure" with
      | none =>
        constructor
        · intro hc
          simp only [decide_eq_true_eq] at hc
          norm_num [maxTotalExposure] at hc
        · intro h
          exfalso
          rcases h with h | ⟨kv, hm, md, hmd, hbr⟩ | ⟨q, hq, -⟩ | hr
          · exact hd h
          · exact (scan_ne_clean_iff _).mpr ⟨kv, hm, Or.inr ⟨md, hmd, hbr⟩⟩ hscan
          · cases hq
          · rcases hr with ⟨kv, hm, q, hq⟩ | ⟨md, hmd⟩
            · exact (scan_ne_clean_iff _).mpr ⟨kv, hm, Or.inl ⟨q, hq⟩⟩ hscan
            · rw [hlk] at hmd
              cases hmd
      | some v =>
        cases v with
        | num q =>
          obtain ⟨k2, hm, -⟩ := lookup_mem hlk
          exact absurd hscan
            ((scan_ne_clean_iff _).mpr ⟨(k2, RMValue.num q), hm, Or.inl ⟨q, rfl⟩⟩)
        | dict md =>
          constructor
          · intro _
            exact Or.inr (Or.inr (Or.inr (Or.inr ⟨md, hlk⟩)))
          · intro _
            rfl

/-- C3 witness: a daily P&L of -6 (beyond the level-3 drawdown of 5) stops
trading. -/
theorem C3_should_stop_trading_witness :
    shouldStopTrading ⟨-6, [], []⟩ = true :=
  (C3_should_stop_trading ⟨-6, [], []⟩).mpr (Or.inl (by norm_num [level3Drawdown]))

/-! ## Claim C7 -/

/-- C7: for fixed price and drawdown, `get_position_size` is monotonically
non-increasing in volatility; its result never falls below
`RISK_LIMITS['min_position_size']`; and on the swallowed-exception path
(a non-numeric metric value) it returns exactly the minimum. -/
theorem C7_position_size (price v1 v2 dd : ℚ) (hv1 : 0 ≤ v1) (hle : v1 ≤ v2) :
    getPositionSize price (.num v2) (.num dd) ≤ getPositionSize price (.num v1) (.num dd)
    ∧ (∀ p : ℚ, ∀ vol md : PyVal, minPositionSize ≤ getPositionSize p vol md)
    ∧ (∀ p : ℚ, ∀ vol md : PyVal, vol = PyVal.other ∨ md = PyVal.other →
        getPositionSize p vol md = minPositionSize) := by
  refine ⟨?_, ?_, ?_⟩
  · simp only [getPositionSize]
    have hvf : (if v2 > 0 then min 1 (volatilityBase / v2) else 1)
        ≤ (if v1 > 0 then min 1 (volatilityBase / v1) else 1) := by
      by_cases h1 : v1 > 0
      · have h2 : v2 > 0 := lt_of_lt_of_le h1 hle
        rw [if_pos h1, if_pos h2]
        refine min_le_min le_rfl ?_
        have hB : (0:ℚ) ≤ volatilityBase := by norm_num [volatilityBase]
        exact div_le_div_of_nonneg_left hB h1 hle
      · rw [if_neg h1]
        by_cases h2 : v2 > 0
        · rw [if_pos h2]
          exact min_le_left _ _
        · rw [if_neg h2]
    have hcf : (0:ℚ) ≤ min 1
        (maxCapitalPerTrade / max (1/1000000000) (price * (maxPositionSize : ℤ) / 100)) := by
      refine le_min (by norm_num) (div_nonneg (by norm_num [maxCapitalPerTrade]) ?_)
      exact le_trans (by norm_num) (le_max_left _ _)
    have hdf : (0:ℚ) ≤ max (1/5) (1 + dd / maxDrawdownLimit) :=
      le_trans (by norm_num) (le_max_left _ _)
    refine max_le_max le_rfl (pyInt_mono ?_)
    have hbase : (0:ℚ) ≤ ((maxPositionSize : ℤ) : ℚ) := by norm_num [maxPositionSize]
    exact mul_le_mul_of_nonneg_right
      (mul_le_mul_of_nonneg_right (mul_le_mul_of_nonneg_left hvf hbase) hcf) hdf
  · intro p vol md
    cases vol with
    | other => exact le_refl _
    | num v =>
      cases md with
      | other => exact le_refl _
      | num d => exact le_max_left _ _
  · intro p vol md h
    rcases h with h | h
    · subst h
      rfl
    · subst h
      cases vol with
      | other => rfl
      | num v => rfl

/-- C7 witness: at price 0.1 the size drops from 5 (volatility 10) to 2
(volatility 30), stays at or above the minimum, and a malformed metrics
value yields exactly the minimum. -/
theorem C7_position_size_witness :
    getPositionSize (1/10) (.num 30) (.num 0) ≤ getPositionSize (1/10) (.num 10) (.num 0)
    ∧ minPositionSize ≤ getPositionSize (1/10) (.num 30) (.num 0)
    ∧ getPositionSize 100 .other (.num 0) = minPositionSize := by
  have h := C7_position_size (1/10) 10 30 0 (by norm_num) (by norm_num)
  exact ⟨h.1, h.2.1 (1/10) (.num 30) (.num 0), h.2.2 100 .other (.num 0) (Or.inl rfl)⟩
